import Mathlib

/-!
Verification of the replay-journal core of RC_Mod_ReplayMaker.

The development shallowly embeds the data model and operations of
`src/HistoryManager.mjs` (current version: `HistoryManager`, `History`,
`HistoryVersionUpgrader`) and the sector-update operation of the earlier
`HistoryManager` revision (`applySectorsUpdate`).  JavaScript objects become
Lean structures; fields that may be absent (`undefined`/`null`, or removed by
the `delete` operator) become `Option` fields with `none` for "absent".
In-place mutation through a reference obtained from `#getById` is modelled by
`updateById`, which rewrites the last element of the list whose `id` matches —
exactly the element the source's `#getById` returns.  The wall clock
(`DateTime.now().toISO()`) and the live sector lookup (`window.gamestate...`)
are external capabilities and are passed in as explicit parameters.
-/

namespace ReplayMaker

/-- Version constants from the top of HistoryManager.mjs (the source spells
the first name with the `VESRION` typo; we keep it). -/
def LATEST_HISTORY_VESRION : Int := 1

def DUMMY_ALPHA_VERSION : Int := -2

def DUMMY_BETA_VERSION : Int := -1

/-- A `division` entry of a sector: `{faction: string|null, points: number}`. -/
structure Division where
  faction : Option String
  points : Int
deriving Repr, DecidableEq

/-- A stellar system as journaled.  `position`, `score` and `receivedAt` are
the transient fields deleted before journaling; `type` and `time` are the
fields the diff engine adds to update records.  `none` models an absent
property. -/
structure System where
  id : Int
  name : String
  owner : Option String
  sector_id : Int
  status : String
  faction : Option String
  position : Option String
  score : Option String
  receivedAt : Option String
  type : Option String
  time : Option String
deriving Repr, DecidableEq

/-- A sector.  `adjacent`, `centroid` and `points` are the transient geometry
fields deleted from journaled records. -/
structure Sector where
  id : Int
  name : String
  owner : Option String
  division : List Division
  adjacent : Option String
  centroid : Option String
  points : Option String
  type : Option String
  time : Option String
deriving Repr, DecidableEq

/-- A galaxy state: `{stellar_systems, sectors}`. -/
structure Galaxy where
  stellar_systems : List System
  sectors : List Sector
deriving Repr, DecidableEq

/-- A journal record.  The current HistoryManager.mjs `applySystemUpdate`
pushes bundled `{system, sector}` records; the earlier revision's
`applySectorsUpdate` pushes flat sector records. -/
inductive Rec where
  | bundled (system : System) (sector : Sector)
  | flat (sector : Sector)
deriving Repr, DecidableEq

/-- The `History` class of HistoryManager.mjs.  `instanceId` renders the
source's `instance` field (a reserved word in Lean).  `currentTime` is not
declared by the class: it is the dynamically added property that
`applySystemUpdate` reads and writes (`history.currentTime`); a `History`
built by the class constructor does not have it (`none`). -/
structure History where
  VERSION : Option Int
  start : String
  base : Galaxy
  current : Galaxy
  snapshots : List Rec
  undo : List Rec
  instanceId : Int
  currentTimestamp : Option String
  currentTime : Option String
  gameType : String
deriving Repr, DecidableEq

/-- The `History(instance, galaxy)` constructor with a non-null galaxy:
`base` and `current` are clones of the galaxy, the logs are empty,
`currentTimestamp` is the present clock reading and `VERSION` is the latest
version constant. -/
def History.create (instanceId : Int) (galaxy : Galaxy) (now : String) : History :=
  { VERSION := some LATEST_HISTORY_VESRION
    start := now
    base := galaxy
    current := galaxy
    snapshots := []
    undo := []
    instanceId := instanceId
    currentTimestamp := some now
    currentTime := none
    gameType := "slow" }

/-- Model of `#getById(list, id)`: iterates the whole list with `forEach`, keeping the
last element whose `id` strictly equals the key (`res` is overwritten on every
match).  `p` projects the id field. -/
def getById {α : Type} (p : α → Int) (l : List α) (i : Int) : Option α :=
  l.foldl (fun res e => if p e = i then some e else res) none

/-- Rewrite the first element of `l` whose projected id is `i` by `f`. -/
def updFirst {α : Type} (p : α → Int) : List α → Int → (α → α) → List α
  | [], _, _ => []
  | e :: rest, i, f => if p e = i then f e :: rest else e :: updFirst p rest i f

/-- Models the in-place mutation of the object `#getById` returned: rewrite
the last element of `l` whose projected id is `i` by `f`. -/
def updateById {α : Type} (p : α → Int) (l : List α) (i : Int) (f : α → α) : List α :=
  (updFirst p l.reverse i f).reverse

theorem getById_append {α : Type} (p : α → Int) (l : List α) (a : α) (i : Int) :
    getById p (l ++ [a]) i = if p a = i then some a else getById p l i := by
  unfold getById
  rw [List.foldl_append]
  simp only [List.foldl_cons, List.foldl_nil]

theorem updateById_append {α : Type} (p : α → Int) (l : List α) (a : α) (i : Int)
    (f : α → α) :
    updateById p (l ++ [a]) i f =
      if p a = i then l ++ [f a] else updateById p l i f ++ [a] := by
  unfold updateById
  rw [List.reverse_append]
  simp only [List.reverse_cons, List.reverse_nil, List.nil_append, List.singleton_append,
    updFirst]
  by_cases h : p a = i <;> simp [h]

/-- The element `#getById` finds has the id it was asked for (the match
condition is `e.id === id`). -/
theorem getById_id {α : Type} (p : α → Int) (l : List α) (i : Int) (e : α)
    (h : getById p l i = some e) : p e = i := by
  induction l using List.reverseRecOn with
  | nil => simp [getById] at h
  | append_singleton l a ih =>
    rw [getById_append] at h
    by_cases ha : p a = i
    · rw [if_pos ha] at h
      cases h
      exact ha
    · rw [if_neg ha] at h
      exact ih h

/-- Mutating the found element with a function that fixes it leaves the list
unchanged. -/
theorem updateById_fix {α : Type} (p : α → Int) (l : List α) (i : Int) (e : α)
    (f : α → α) (h : getById p l i = some e) (hf : f e = e) :
    updateById p l i f = l := by
  induction l using List.reverseRecOn with
  | nil => simp [getById] at h
  | append_singleton l a ih =>
    rw [getById_append] at h
    rw [updateById_append]
    by_cases ha : p a = i
    · rw [if_pos ha]
      rw [if_pos ha] at h
      cases h
      rw [hf]
    · rw [if_neg ha]
      rw [if_neg ha] at h
      rw [ih h]

/-- Two successive in-place mutations of the same element compose, provided
the first does not change the element's id. -/
theorem updateById_comp {α : Type} (p : α → Int) (l : List α) (i : Int)
    (f g : α → α) (hp : ∀ e, p (f e) = p e) :
    updateById p (updateById p l i f) i g = updateById p l i (fun e => g (f e)) := by
  induction l using List.reverseRecOn with
  | nil => simp [updateById, updFirst]
  | append_singleton l a ih =>
    rw [updateById_append]
    by_cases ha : p a = i
    · rw [if_pos ha, updateById_append, if_pos ((hp a).trans ha),
        updateById_append, if_pos ha]
    · rw [if_neg ha, updateById_append, if_neg ha, ih,
        updateById_append, if_neg ha]

/-- Lookup `getById` on an empty list finds nothing. -/
theorem getById_nil {α : Type} (p : α → Int) (i : Int) :
    getById p ([] : List α) i = none := rfl

/-- The errors `applySystemUpdate` throws: `"Null system ID: " + sys.id +
" from instance " + instance` and `"Null sector ID: " + sys.sector_id +
" from instance " + instance`. -/
inductive UpdateError where
  | unknownSystem (id : Int) (instanceId : Int)
  | unknownSector (id : Int) (instanceId : Int)
deriving Repr, DecidableEq

/-- Model of `HistoryManager.applySystemUpdate(sys, instance)` acting on an already
loaded `History` (the caller, `applySystemUpdateM`, performs the fatal-flag
check and the `getHistory` load).  `getSector` is the live sector lookup
(`window.gamestate.game.galaxy.sectors[id]`), `now` the clock reading
`DateTime.now().toISO()`.  Returns the updated history, the caller's system
object after its in-place mutations, and whether `saveHistoryToDisk` was
called.  Note the source reads and writes `history.currentTime`, not the
`currentTimestamp` field the `History` class declares. -/
def applySystemUpdateH (getSector : Int → Sector) (now : String)
    (sys : System) (instanceId : Int) (history : History) :
    Except UpdateError (History × System × Bool) :=
  let sys := { sys with type := some "system" }
  let curState := history.current
  match getById System.id curState.stellar_systems sys.id,
        getById Sector.id curState.sectors sys.sector_id with
  | none, _ => .error (.unknownSystem sys.id instanceId)
  | some _, none => .error (.unknownSector sys.sector_id instanceId)
  | some storedSys, some storedSec =>
    if storedSys.owner ≠ sys.owner ∨ storedSys.status ≠ sys.status then
      -- undo record for the system: clone of the stored system, transient
      -- fields deleted, stamped with history.currentTime
      let u : System := { storedSys with
        position := none, score := none, receivedAt := none,
        time := history.currentTime, type := some "system" }
      -- the caller's object is cleaned up in place
      let sys := { sys with
        time := some now, position := none, score := none, receivedAt := none }
      -- storedSys.owner/faction/status are mutated through the reference
      let newSystems := updateById System.id curState.stellar_systems sys.id
        (fun e => { e with owner := sys.owner, faction := sys.faction, status := sys.status })
      -- undo record for the sector: clone of the stored sector with the
      -- geometry fields deleted
      let sec : Sector := { storedSec with
        adjacent := none, centroid := none, points := none }
      let curSector := getSector sec.id
      -- storedSec.owner/division are mutated through the reference
      let newSectors := updateById Sector.id curState.sectors sys.sector_id
        (fun e => { e with owner := curSector.owner, division := curSector.division })
      let storedSec2 := { storedSec with
        owner := curSector.owner, division := curSector.division }
      let record := Rec.bundled sys storedSec2
      let undoR := Rec.bundled u sec
      let history := { history with
        current := { stellar_systems := newSystems, sectors := newSectors }
        currentTime := some now
        undo := history.undo ++ [undoR]
        snapshots := history.snapshots ++ [record] }
      .ok (history, sys, true)
    else
      .ok (history, sys, false)

/-- One iteration of the `sectors.forEach` body of the earlier revision's
`applySectorsUpdate`: compare owners, and on a difference push a flat
forward/undo pair and mutate the stored sector.  Returns the new history and
whether this sector produced a record pair.  A missing stored sector is a
TypeError in the source (reading `curr.owner` of null); the caller aborts
there. -/
def applySectorStep (now : String) (history : History) (sec : Sector) :
    Option (History × Bool) :=
  match getById Sector.id history.current.sectors sec.id with
  | none => none
  | some curr =>
    if curr.owner ≠ sec.owner then
      -- the caller's sector object is mutated in place
      let sec := { sec with
        type := some "sector", time := some now,
        adjacent := none, centroid := none, points := none }
      -- undo record: clone of the stored sector stamped with
      -- history.currentTime (the geometry fields are not deleted here)
      let u : Sector := { curr with time := history.currentTime, type := some "sector" }
      let newSectors := updateById Sector.id history.current.sectors sec.id
        (fun e => { e with owner := sec.owner, division := sec.division })
      let history := { history with
        snapshots := history.snapshots ++ [Rec.flat sec]
        undo := history.undo ++ [Rec.flat u]
        current := { history.current with sectors := newSectors } }
      some (history, true)
    else
      some (history, false)

/-- Model of `applySectorsUpdate(sectors, instance)` over an already loaded history:
fold the per-sector body over the list; a TypeError (missing stored sector)
aborts the iteration, keeping the mutations made so far.  The Bool reports
whether any pair was pushed (hence persisted); `true` in the error component
means the iteration aborted. -/
def applySectorsUpdateH (now : String) (history : History) :
    List Sector → History × Bool × Bool
  | [] => (history, false, false)
  | sec :: rest =>
    match applySectorStep now history sec with
    | none => (history, false, true)
    | some (history, saved) =>
      let r := applySectorsUpdateH now history rest
      (r.1, saved || r.2.1, r.2.2)

/-- Replay semantics of a journal record: a bundled record writes its
system's `owner`/`faction`/`status` and its sector's `owner`/`division` into
the galaxy state; a flat sector record writes `owner`/`division`.  Applying
the forward record at index `i` to the state before transition `i` yields the
state after it, and applying the paired undo record takes it back. -/
def applyRec (r : Rec) (g : Galaxy) : Galaxy :=
  match r with
  | .bundled s sec =>
    { stellar_systems := updateById System.id g.stellar_systems s.id
        (fun e => { e with owner := s.owner, faction := s.faction, status := s.status })
      sectors := updateById Sector.id g.sectors sec.id
        (fun e => { e with owner := sec.owner, division := sec.division }) }
  | .flat sec =>
    let newSectors := updateById Sector.id g.sectors sec.id
      (fun e => { e with owner := sec.owner, division := sec.division })
    { g with sectors := newSectors }

/-- Fold a record list over a galaxy state. -/
def replay (g : Galaxy) (rs : List Rec) : Galaxy :=
  rs.foldl (fun s r => applyRec r s) g

/-- The journal invariant: the two logs have equal length, `current` is the
replay of the forward log over `base`, and at every index the undo record is
the exact inverse of the forward record — applying the forward record at the
state it was created from and then the paired undo record restores that
state. -/
def histInv (h : History) : Prop :=
  h.snapshots.length = h.undo.length ∧
  h.current = replay h.base h.snapshots ∧
  ∀ i si ui, h.snapshots[i]? = some si → h.undo[i]? = some ui →
    applyRec ui (applyRec si (replay h.base (h.snapshots.take i))) =
      replay h.base (h.snapshots.take i)

/-! Concrete fixtures mirroring the repository's test data: instance 10 has
an empty galaxy, instance 20 has one uninhabited, unowned system inside one
unowned sector. -/

def SIMPLE_SECTOR : Sector :=
  { id := 0, name := "simple sector", owner := none,
    division := [{ faction := none, points := 1 }],
    adjacent := none, centroid := none, points := none,
    type := none, time := none }

def SIMPLE_SYSTEM : System :=
  { id := 1, name := "system name", owner := none, sector_id := 0,
    status := "uninhabited", faction := none,
    position := none, score := none, receivedAt := none,
    type := none, time := none }

def simpleGalaxy : Galaxy :=
  { stellar_systems := [SIMPLE_SYSTEM], sectors := [SIMPLE_SECTOR] }

def emptyGalaxy : Galaxy := { stellar_systems := [], sectors := [] }

def SIMPLE_HISTORY : History :=
  History.create 20 simpleGalaxy "2022-03-24T10:01:50.085-04:00"

def EMPTY_HISTORY : History :=
  History.create 10 emptyGalaxy "2022-03-24T10:01:50.085-04:00"

/-- Characterization of the missing-system path: the error names the
candidate's id and the instance. -/
theorem applySystemUpdateH_unknownSystem_eq (getSector : Int → Sector) (now : String)
    (sys : System) (instanceId : Int) (history : History)
    (h : getById System.id history.current.stellar_systems sys.id = none) :
    applySystemUpdateH getSector now sys instanceId history =
      .error (.unknownSystem sys.id instanceId) := by
  unfold applySystemUpdateH
  simp only [h]

/-- Characterization of the missing-sector path: when the system is found but
the sector is not, the error names the candidate's sector id and the
instance. -/
theorem applySystemUpdateH_unknownSector_eq (getSector : Int → Sector) (now : String)
    (sys : System) (instanceId : Int) (history : History) (storedSys : System)
    (hsys : getById System.id history.current.stellar_systems sys.id = some storedSys)
    (hsec : getById Sector.id history.current.sectors sys.sector_id = none) :
    applySystemUpdateH getSector now sys instanceId history =
      .error (.unknownSector sys.sector_id instanceId) := by
  unfold applySystemUpdateH
  simp only [hsys, hsec]

/-- Claim C6: a candidate system whose id matches no system in the current
state makes `applySystemUpdate` fail with the unknown-system error carrying
the system id and the instance; no updated history is produced, so the
History is unchanged by the failed call. -/
theorem applySystemUpdate_unknownSystem (getSector : Int → Sector) (now : String)
    (sys : System) (instanceId : Int) (history : History)
    (h : getById System.id history.current.stellar_systems sys.id = none) :
    applySystemUpdateH getSector now sys instanceId history =
      .error (.unknownSystem sys.id instanceId) :=
  applySystemUpdateH_unknownSystem_eq getSector now sys instanceId history h

/-- Claim C6 witness: against instance 10's empty galaxy, updating system id
1 fails with the unknown-system error naming id 1 and instance 10. -/
theorem applySystemUpdate_unknownSystem_witness :
    applySystemUpdateH (fun _ => SIMPLE_SECTOR) "2022-03-24T10:05:00.000-04:00"
        SIMPLE_SYSTEM 10 EMPTY_HISTORY =
      .error (.unknownSystem 1 10) :=
  applySystemUpdate_unknownSystem _ _ SIMPLE_SYSTEM 10 EMPTY_HISTORY rfl

/-- Characterization of the no-change path: equal `owner` and `status` return
the history unchanged, the candidate with only `type` set, and a false
persisted flag. -/
theorem applySystemUpdateH_noop_eq (getSector : Int → Sector) (now : String)
    (sys : System) (instanceId : Int) (history : History)
    (storedSys : System) (storedSec : Sector)
    (hsys : getById System.id history.current.stellar_systems sys.id = some storedSys)
    (hsec : getById Sector.id history.current.sectors sys.sector_id = some storedSec)
    (hown : storedSys.owner = sys.owner) (hst : storedSys.status = sys.status) :
    applySystemUpdateH getSector now sys instanceId history =
      .ok (history, { sys with type := some "system" }, false) := by
  unfold applySystemUpdateH
  simp only [hsys, hsec]
  rw [if_neg]
  simp [hown, hst]

/-- The stored simple system with only the transient fields changed: equal
`owner` and `status`, different `position`/`score`/`receivedAt`. -/
def transientCandidate : System :=
  { SIMPLE_SYSTEM with
    position := some "p", score := some "77", receivedAt := some "now" }

/-- Claim C5: when the candidate's `owner` and `status` both equal the stored
system's values, `applySystemUpdate` is a no-op — the history is returned
unchanged (so the log lengths and `current` are unchanged) and nothing is
persisted (the saved flag is false).  Only `owner` and `status` enter the
change detection, so candidates differing in any other field — in particular
the transient `position`, `score`, `receivedAt` — take this branch too; and
re-applying an update identical to the current stored state is idempotent. -/
theorem applySystemUpdate_noop (getSector : Int → Sector) (now : String)
    (sys : System) (instanceId : Int) (history : History)
    (storedSys : System) (storedSec : Sector)
    (hsys : getById System.id history.current.stellar_systems sys.id = some storedSys)
    (hsec : getById Sector.id history.current.sectors sys.sector_id = some storedSec)
    (hown : storedSys.owner = sys.owner) (hst : storedSys.status = sys.status) :
    applySystemUpdateH getSector now sys instanceId history =
      .ok (history, { sys with type := some "system" }, false) :=
  applySystemUpdateH_noop_eq getSector now sys instanceId history storedSys storedSec
    hsys hsec hown hst

/-- Claim C5 witness: re-sending instance 20's stored system with only the
transient fields changed appends nothing, leaves the history untouched, and
persists nothing. -/
theorem applySystemUpdate_noop_witness :
    applySystemUpdateH (fun _ => SIMPLE_SECTOR) "2022-03-24T10:05:00.000-04:00"
        transientCandidate 20 SIMPLE_HISTORY =
      .ok (SIMPLE_HISTORY, { transientCandidate with type := some "system" }, false) :=
  applySystemUpdate_noop _ _ _ 20 SIMPLE_HISTORY SIMPLE_SYSTEM SIMPLE_SECTOR
    rfl rfl rfl rfl

/-- The caller's candidate system after `applySystemUpdate`'s in-place
mutations on the change path: `type` set, `time` stamped with the clock
reading, transient fields deleted. -/
def mutatedCandidate (now : String) (sys : System) : System :=
  { sys with
    type := some "system", time := some now,
    position := none, score := none, receivedAt := none }

/-- The undo record's system: clone of the pre-mutation stored system with
transient fields deleted, stamped with `history.currentTime` and typed. -/
def undoSystem (history : History) (storedSys : System) : System :=
  { storedSys with
    position := none, score := none, receivedAt := none,
    time := history.currentTime, type := some "system" }

/-- The undo record's sector: clone of the pre-mutation stored sector with
the geometry fields deleted. -/
def undoSector (storedSec : Sector) : Sector :=
  { storedSec with adjacent := none, centroid := none, points := none }

/-- The forward record's sector: clone of the stored sector after its
`owner`/`division` were overwritten from the live sector lookup. -/
def forwardSector (getSector : Int → Sector) (storedSec : Sector) : Sector :=
  { storedSec with
    owner := (getSector storedSec.id).owner,
    division := (getSector storedSec.id).division }

/-- The full result of `applySystemUpdate`'s change path: the history with
`current` rewritten through the stored references, `currentTime` advanced to
the forward time, and the bundled forward/undo pair appended; the mutated
candidate; and the persisted flag. -/
def applySystemChangeResult (getSector : Int → Sector) (now : String)
    (sys : System) (history : History) (storedSys : System) (storedSec : Sector) :
    History × System × Bool :=
  let sys2 := mutatedCandidate now sys
  let newSystems := updateById System.id history.current.stellar_systems sys.id
    (fun e => { e with owner := sys2.owner, faction := sys2.faction, status := sys2.status })
  let newSectors := updateById Sector.id history.current.sectors sys.sector_id
    (fun e => { e with owner := (getSector storedSec.id).owner, division := (getSector storedSec.id).division })
  let record := Rec.bundled sys2 (forwardSector getSector storedSec)
  let undoR := Rec.bundled (undoSystem history storedSys) (undoSector storedSec)
  ({ history with
     current := { stellar_systems := newSystems, sectors := newSectors }
     currentTime := some now
     undo := history.undo ++ [undoR]
     snapshots := history.snapshots ++ [record] },
   sys2, true)

/-- Characterization of the change path: when the stored system and sector
are found and `owner` or `status` differs, `applySystemUpdate` returns
exactly `applySystemChangeResult`. -/
theorem applySystemUpdateH_change (getSector : Int → Sector) (now : String)
    (sys : System) (instanceId : Int) (history : History)
    (storedSys : System) (storedSec : Sector)
    (hsys : getById System.id history.current.stellar_systems sys.id = some storedSys)
    (hsec : getById Sector.id history.current.sectors sys.sector_id = some storedSec)
    (hch : ¬(storedSys.owner = sys.owner ∧ storedSys.status = sys.status)) :
    applySystemUpdateH getSector now sys instanceId history =
      .ok (applySystemChangeResult getSector now sys history storedSys storedSec) := by
  unfold applySystemUpdateH applySystemChangeResult mutatedCandidate undoSystem
    undoSector forwardSector
  simp only [hsys, hsec]
  rw [if_pos]
  exact not_and_or.mp hch

/-- Claim C10: `applySystemUpdate` mutates the caller-supplied candidate in
place.  Whenever the call proceeds past loading (stored system and sector
found), the returned candidate carries `type = "system"` — even on the no-op
path, where it is otherwise untouched — and when a change is detected its
transient `position`/`score`/`receivedAt` fields are deleted, a `time` field
is added, and the very same mutated candidate is the `system` component of
the appended forward snapshot record (caller-owned data aliased into the
journal). -/
theorem applySystemUpdate_mutates_candidate (getSector : Int → Sector) (now : String)
    (sys : System) (instanceId : Int) (history : History)
    (storedSys : System) (storedSec : Sector)
    (hsys : getById System.id history.current.stellar_systems sys.id = some storedSys)
    (hsec : getById Sector.id history.current.sectors sys.sector_id = some storedSec) :
    ∃ h2 sys2 saved,
      applySystemUpdateH getSector now sys instanceId history = .ok (h2, sys2, saved) ∧
      sys2.type = some "system" ∧
      ((storedSys.owner = sys.owner ∧ storedSys.status = sys.status) →
        sys2 = { sys with type := some "system" } ∧ h2 = history) ∧
      (¬(storedSys.owner = sys.owner ∧ storedSys.status = sys.status) →
        sys2.position = none ∧ sys2.score = none ∧ sys2.receivedAt = none ∧
        sys2.time = some now ∧
        ∃ sec2, h2.snapshots = history.snapshots ++ [Rec.bundled sys2 sec2]) := by
  by_cases hch : storedSys.owner = sys.owner ∧ storedSys.status = sys.status
  · refine ⟨history, { sys with type := some "system" }, false, ?_, rfl, ?_, ?_⟩
    · exact applySystemUpdateH_noop_eq getSector now sys instanceId history
        storedSys storedSec hsys hsec hch.1 hch.2
    · intro _
      exact ⟨rfl, rfl⟩
    · intro h
      exact absurd hch h
  · refine ⟨_, _, _, applySystemUpdateH_change getSector now sys instanceId history
      storedSys storedSec hsys hsec hch, rfl, ?_, ?_⟩
    · intro h
      exact absurd h hch
    · intro _
      exact ⟨rfl, rfl, rfl, rfl, forwardSector getSector storedSec, rfl⟩

/-- A candidate update flipping instance 20's stored system to a new owner. -/
def graniteCandidate : System := { SIMPLE_SYSTEM with owner := some "Granite" }

/-- Claim C10 witness: applying the owner-flipping candidate against instance
20 mutates it (type set, transients stripped, time stamped) and aliases it
into the appended forward record. -/
theorem applySystemUpdate_mutates_candidate_witness :
    ∃ h2 sys2 saved,
      applySystemUpdateH (fun _ => SIMPLE_SECTOR) "2022-03-24T10:05:00.000-04:00"
          graniteCandidate 20 SIMPLE_HISTORY = .ok (h2, sys2, saved) ∧
      sys2.type = some "system" ∧
      ((SIMPLE_SYSTEM.owner = graniteCandidate.owner ∧
          SIMPLE_SYSTEM.status = graniteCandidate.status) →
        sys2 = { graniteCandidate with type := some "system" } ∧ h2 = SIMPLE_HISTORY) ∧
      (¬(SIMPLE_SYSTEM.owner = graniteCandidate.owner ∧
          SIMPLE_SYSTEM.status = graniteCandidate.status) →
        sys2.position = none ∧ sys2.score = none ∧ sys2.receivedAt = none ∧
        sys2.time = some "2022-03-24T10:05:00.000-04:00" ∧
        ∃ sec2, h2.snapshots = SIMPLE_HISTORY.snapshots ++ [Rec.bundled sys2 sec2]) :=
  applySystemUpdate_mutates_candidate (fun _ => SIMPLE_SECTOR)
    "2022-03-24T10:05:00.000-04:00" graniteCandidate 20 SIMPLE_HISTORY
    SIMPLE_SYSTEM SIMPLE_SECTOR rfl rfl

/-- Replaying over an extended log applies the appended record last. -/
theorem replay_append (g : Galaxy) (l : List Rec) (r : Rec) :
    replay g (l ++ [r]) = applyRec r (replay g l) := by
  unfold replay
  rw [List.foldl_append]
  rfl

/-- The change path's mutation of `current` is exactly the replay of the
appended forward record: the code writes the candidate's
`owner`/`faction`/`status` and the live sector's `owner`/`division` through
the stored references, and the forward record stores those same values. -/
theorem changeResult_current (getSector : Int → Sector) (now : String)
    (sys : System) (history : History) (storedSys : System) (storedSec : Sector)
    (hsec : getById Sector.id history.current.sectors sys.sector_id = some storedSec) :
    (applySystemChangeResult getSector now sys history storedSys storedSec).1.current =
      applyRec (Rec.bundled (mutatedCandidate now sys) (forwardSector getSector storedSec))
        history.current := by
  have hsid : Sector.id storedSec = sys.sector_id := getById_id _ _ _ _ hsec
  simp only [applySystemChangeResult, applyRec, mutatedCandidate, forwardSector]
  rw [hsid]

/-- Applying the undo record after the forward record restores the state the
pair was built from: the undo record carries exactly the pre-mutation
`owner`/`faction`/`status` of the stored system and `owner`/`division` of the
stored sector. -/
theorem applyRec_change_inverse (getSector : Int → Sector) (now : String)
    (sys : System) (history : History) (storedSys : System) (storedSec : Sector)
    (hsys : getById System.id history.current.stellar_systems sys.id = some storedSys)
    (hsec : getById Sector.id history.current.sectors sys.sector_id = some storedSec) :
    applyRec (Rec.bundled (undoSystem history storedSys) (undoSector storedSec))
      (applyRec (Rec.bundled (mutatedCandidate now sys) (forwardSector getSector storedSec))
        history.current) = history.current := by
  have hid : System.id storedSys = sys.id := getById_id _ _ _ _ hsys
  have hsid : Sector.id storedSec = sys.sector_id := getById_id _ _ _ _ hsec
  simp only [applyRec, mutatedCandidate, undoSystem, undoSector, forwardSector]
  rw [hid, hsid]
  have hS : updateById System.id
      (updateById System.id history.current.stellar_systems sys.id
        (fun e => { e with owner := sys.owner, status := sys.status, faction := sys.faction }))
      sys.id
      (fun e => { e with owner := storedSys.owner, status := storedSys.status, faction := storedSys.faction })
      = history.current.stellar_systems := by
    rw [updateById_comp]
    · exact updateById_fix _ _ _ storedSys _ hsys rfl
    · exact fun e => rfl
  have hC : updateById Sector.id
      (updateById Sector.id history.current.sectors sys.sector_id
        (fun e => { e with owner := (getSector sys.sector_id).owner, division := (getSector sys.sector_id).division }))
      sys.sector_id
      (fun e => { e with owner := storedSec.owner, division := storedSec.division })
      = history.current.sectors := by
    rw [updateById_comp]
    · exact updateById_fix _ _ _ storedSec _ hsec rfl
    · exact fun e => rfl
  rw [hS, hC]

/-- The caller's sector object after `applySectorsUpdate`'s in-place
mutations: typed, time-stamped, geometry fields deleted. -/
def mutatedSector (now : String) (sec : Sector) : Sector :=
  { sec with
    type := some "sector", time := some now,
    adjacent := none, centroid := none, points := none }

/-- The flat undo record of `applySectorsUpdate`: clone of the stored sector
stamped with `history.currentTime` and typed (geometry kept). -/
def undoFlatSector (history : History) (curr : Sector) : Sector :=
  { curr with time := history.currentTime, type := some "sector" }

/-- The history produced by one changed sector of `applySectorsUpdate`. -/
def sectorChangeResult (now : String) (history : History) (sec : Sector)
    (curr : Sector) : History :=
  let sec2 := mutatedSector now sec
  let newSectors := updateById Sector.id history.current.sectors sec.id
    (fun e => { e with owner := sec2.owner, division := sec2.division })
  { history with
    snapshots := history.snapshots ++ [Rec.flat sec2]
    undo := history.undo ++ [Rec.flat (undoFlatSector history curr)]
    current := { history.current with sectors := newSectors } }

/-- Characterization of `applySectorStep` on a changed sector. -/
theorem applySectorStep_change (now : String) (history : History) (sec : Sector)
    (curr : Sector)
    (hget : getById Sector.id history.current.sectors sec.id = some curr)
    (hch : curr.owner ≠ sec.owner) :
    applySectorStep now history sec =
      some (sectorChangeResult now history sec curr, true) := by
  unfold applySectorStep sectorChangeResult mutatedSector undoFlatSector
  simp only [hget]
  rw [if_pos hch]

/-- Characterization of `applySectorStep` on an unchanged sector. -/
theorem applySectorStep_noop (now : String) (history : History) (sec : Sector)
    (curr : Sector)
    (hget : getById Sector.id history.current.sectors sec.id = some curr)
    (hch : curr.owner = sec.owner) :
    applySectorStep now history sec = some (history, false) := by
  unfold applySectorStep
  simp only [hget]
  rw [if_neg]
  simp [hch]

/-- The sector change writes `current` exactly as replaying the appended flat
forward record does. -/
theorem sectorChangeResult_current (now : String) (history : History)
    (sec : Sector) (curr : Sector) :
    (sectorChangeResult now history sec curr).current =
      applyRec (Rec.flat (mutatedSector now sec)) history.current := by
  simp only [sectorChangeResult, applyRec, mutatedSector]

/-- Applying the flat undo record after the flat forward record restores the
pre-mutation state. -/
theorem applyRec_sector_inverse (now : String) (history : History)
    (sec : Sector) (curr : Sector)
    (hget : getById Sector.id history.current.sectors sec.id = some curr) :
    applyRec (Rec.flat (undoFlatSector history curr))
      (applyRec (Rec.flat (mutatedSector now sec)) history.current) =
      history.current := by
  have hid : Sector.id curr = sec.id := getById_id _ _ _ _ hget
  simp only [applyRec, mutatedSector, undoFlatSector]
  rw [hid]
  have hC : updateById Sector.id
      (updateById Sector.id history.current.sectors sec.id
        (fun e => { e with owner := sec.owner, division := sec.division }))
      sec.id
      (fun e => { e with owner := curr.owner, division := curr.division })
      = history.current.sectors := by
    rw [updateById_comp]
    · exact updateById_fix _ _ _ curr _ hget rfl
    · exact fun e => rfl
  rw [hC]

/-- Appending a forward/undo pair that replays forward to the new `current`
and undoes back to the old one preserves the journal invariant. -/
theorem histInv_append (h h2 : History) (fwd undoR : Rec)
    (hinv : histInv h)
    (hbase : h2.base = h.base)
    (hsnaps : h2.snapshots = h.snapshots ++ [fwd])
    (hundo : h2.undo = h.undo ++ [undoR])
    (hcur : h2.current = applyRec fwd h.current)
    (hinverse : applyRec undoR (applyRec fwd h.current) = h.current) :
    histInv h2 := by
  obtain ⟨hlen, hc, hpair⟩ := hinv
  refine ⟨?_, ?_, ?_⟩
  · rw [hsnaps, hundo, List.length_append, List.length_append, hlen]
    rfl
  · rw [hsnaps, hbase, replay_append, ← hc, hcur]
  · intro i si ui hsi hui
    rw [hsnaps] at hsi ⊢
    rw [hundo] at hui
    rw [hbase]
    by_cases hi : i < h.snapshots.length
    · rw [List.getElem?_append_left hi] at hsi
      rw [List.getElem?_append_left (by rw [← hlen]; exact hi)] at hui
      rw [List.take_append_of_le_length (le_of_lt hi)]
      exact hpair i si ui hsi hui
    · have hlt : i < (h.snapshots ++ [fwd]).length := (List.getElem?_eq_some.mp hsi).1
      rw [List.length_append] at hlt
      have hieq : i = h.snapshots.length := by
        simp only [List.length_singleton] at hlt
        omega
      subst hieq
      rw [List.getElem?_concat_length] at hsi
      rw [hlen, List.getElem?_concat_length] at hui
      have hsifwd : fwd = si := Option.some.inj hsi
      have huiundo : undoR = ui := Option.some.inj hui
      subst hsifwd
      subst huiundo
      rw [List.take_append_of_le_length (le_refl _), List.take_length, ← hc]
      exact hinverse

/-- One recorded operation of the diff engine: a system update (current
HistoryManager.mjs) or a sector-list update (earlier revision). -/
inductive Op where
  | system (getSector : Int → Sector) (now : String) (sys : System) (instanceId : Int)
  | sectors (now : String) (secs : List Sector)

/-- Run one operation against a History; a thrown error leaves the History
as the operation left it (the system update mutates nothing before
throwing). -/
def stepOp (h : History) : Op → History
  | Op.system getSector now sys instanceId =>
    match applySystemUpdateH getSector now sys instanceId h with
    | .ok r => r.1
    | .error _ => h
  | Op.sectors now secs => (applySectorsUpdateH now h secs).1

/-- Run a sequence of operations. -/
def runOps (h : History) (ops : List Op) : History := ops.foldl stepOp h

theorem histInv_stepSystem (getSector : Int → Sector) (now : String)
    (sys : System) (instanceId : Int) (h : History) (hinv : histInv h) :
    histInv (stepOp h (Op.system getSector now sys instanceId)) := by
  show histInv (match applySystemUpdateH getSector now sys instanceId h with
    | Except.ok r => r.1
    | Except.error _ => h)
  cases hsysr : getById System.id h.current.stellar_systems sys.id with
  | none =>
    rw [applySystemUpdateH_unknownSystem_eq getSector now sys instanceId h hsysr]
    exact hinv
  | some storedSys =>
    cases hsecr : getById Sector.id h.current.sectors sys.sector_id with
    | none =>
      rw [applySystemUpdateH_unknownSector_eq getSector now sys instanceId h
        storedSys hsysr hsecr]
      exact hinv
    | some storedSec =>
      by_cases hch : storedSys.owner = sys.owner ∧ storedSys.status = sys.status
      · rw [applySystemUpdateH_noop_eq getSector now sys instanceId h
          storedSys storedSec hsysr hsecr hch.1 hch.2]
        exact hinv
      · rw [applySystemUpdateH_change getSector now sys instanceId h
          storedSys storedSec hsysr hsecr hch]
        exact histInv_append h _
          (Rec.bundled (mutatedCandidate now sys) (forwardSector getSector storedSec))
          (Rec.bundled (undoSystem h storedSys) (undoSector storedSec))
          hinv rfl rfl rfl
          (changeResult_current getSector now sys h storedSys storedSec hsecr)
          (applyRec_change_inverse getSector now sys h storedSys storedSec hsysr hsecr)

theorem histInv_sectorsH (now : String) (secs : List Sector) :
    ∀ h : History, histInv h → histInv (applySectorsUpdateH now h secs).1 := by
  induction secs with
  | nil =>
    intro h hinv
    exact hinv
  | cons sec rest ih =>
    intro h hinv
    unfold applySectorsUpdateH
    cases hget : getById Sector.id h.current.sectors sec.id with
    | none =>
      have hnone : applySectorStep now h sec = none := by
        unfold applySectorStep
        simp only [hget]
      rw [hnone]
      exact hinv
    | some curr =>
      by_cases hch : curr.owner = sec.owner
      · rw [applySectorStep_noop now h sec curr hget hch]
        exact ih h hinv
      · rw [applySectorStep_change now h sec curr hget hch]
        exact ih _ (histInv_append h _
          (Rec.flat (mutatedSector now sec))
          (Rec.flat (undoFlatSector h curr))
          hinv rfl rfl rfl
          (sectorChangeResult_current now h sec curr)
          (applyRec_sector_inverse now h sec curr hget))

theorem histInv_stepOp (h : History) (op : Op) (hinv : histInv h) :
    histInv (stepOp h op) := by
  cases op with
  | system getSector now sys instanceId =>
    exact histInv_stepSystem getSector now sys instanceId h hinv
  | sectors now secs => exact histInv_sectorsH now secs h hinv

theorem histInv_runOps (ops : List Op) :
    ∀ h : History, histInv h → histInv (runOps h ops) := by
  induction ops with
  | nil =>
    intro h hinv
    exact hinv
  | cons op rest ih =>
    intro h hinv
    exact ih (stepOp h op) (histInv_stepOp h op hinv)

/-- A freshly created History satisfies the journal invariant: empty logs and
`current = base`. -/
theorem histInv_create (instanceId : Int) (galaxy : Galaxy) (now : String) :
    histInv (History.create instanceId galaxy now) := by
  refine ⟨rfl, rfl, ?_⟩
  intro i si ui hsi hui
  simp [History.create] at hsi

/-- Claim C4: for every History (as created by `processNewInstance`) and
every sequence of diff operations (system updates per the current
HistoryManager.mjs, sector updates per the earlier revision), the `snapshots`
and `undo` logs always have equal length, and at every index the undo record
is the paired structural inverse of the forward record: `current` is the
replay of the forward log over `base`, and applying forward record `i` at the
state it was built from and then undo record `i` restores that state
(pre-mutation `owner`/`faction`/`status` of the system and
`owner`/`division` of the sector). -/
theorem journal_pairing_invariant (instanceId : Int) (galaxy : Galaxy)
    (now : String) (ops : List Op) :
    histInv (runOps (History.create instanceId galaxy now) ops) :=
  histInv_runOps ops (History.create instanceId galaxy now)
    (histInv_create instanceId galaxy now)

/-! ## Store level

`HistoryManager`'s process-wide state: the `#loadedGalaxies` cache, the
persisted documents keyed by instance (`<rootDir>/<instance>/history.json`),
and the `#fatal` flag. -/

structure ManagerState where
  loadedGalaxies : Int → Option History
  disk : Int → Option History
  fatal : Bool

/-- Model of `hasHistory(instance)`: cached, or a persisted document exists. -/
def hasHistory (st : ManagerState) (instanceId : Int) : Bool :=
  (st.loadedGalaxies instanceId).isSome || (st.disk instanceId).isSome

/-- Model of `getHistory(instance)`: return the cached entry, else load the persisted
document and cache it, else fail. -/
def getHistoryM (st : ManagerState) (instanceId : Int) :
    ManagerState × Option History :=
  match st.loadedGalaxies instanceId with
  | some h => (st, some h)
  | none =>
    match st.disk instanceId with
    | some h =>
      ({ st with loadedGalaxies := fun j => if j = instanceId then some h else st.loadedGalaxies j },
        some h)
    | none => (st, none)

/-- Model of `processNewInstance(instance, galaxy)`.  After the fatal-flag guard, the
`hasHistory` check only logs ("History file already exists...") and falls
through: a fresh `History` built from the supplied galaxy is constructed and
cached unconditionally (the `historyData` object literal in the source is
dead code).  Then `fs.mkdir(rootDir + instance)` runs: on failure (e.g. the
instance directory already exists) the callback sets the fatal flag and the
file is not written; on success the fresh history is written over the
instance's document.  `mkdirFails` models the callback's error argument. -/
def processNewInstance (now : String) (st : ManagerState) (instanceId : Int)
    (galaxy : Galaxy) (mkdirFails : Bool) : ManagerState :=
  if st.fatal then st
  else
    let h := History.create instanceId galaxy now
    let st1 := { st with
      loadedGalaxies := fun j => if j = instanceId then some h else st.loadedGalaxies j }
    if mkdirFails then { st1 with fatal := true }
    else { st1 with disk := fun j => if j = instanceId then some h else st1.disk j }

/-- Store-level errors: a failed `getHistory` load or a thrown diff error. -/
inductive ManagerError where
  | loadFailed (instanceId : Int)
  | update (e : UpdateError)
deriving Repr, DecidableEq

/-- Model of `applySystemUpdate(sys, instance)` at the store level: fatal guard, load,
diff, and on a detected change `saveHistoryToDisk` (cache and document both
end at the mutated history, which is mutated in place). -/
def applySystemUpdateM (getSector : Int → Sector) (now : String) (sys : System)
    (instanceId : Int) (st : ManagerState) : ManagerState × Option ManagerError :=
  if st.fatal then (st, none)
  else
    let lr := getHistoryM st instanceId
    match lr.2 with
    | none => (lr.1, some (.loadFailed instanceId))
    | some h =>
      match applySystemUpdateH getSector now sys instanceId h with
      | .error e => (lr.1, some (.update e))
      | .ok (h2, _, saved) =>
        if saved then
          ({ lr.1 with
             loadedGalaxies := fun j => if j = instanceId then some h2 else lr.1.loadedGalaxies j,
             disk := fun j => if j = instanceId then some h2 else lr.1.disk j },
            none)
        else (lr.1, none)

/-- Model of `applySectorsUpdate(sectors, instance)` at the store level (earlier
revision): fatal guard, null guard, load, per-sector diff with per-change
`saveHistoryToDisk`. -/
def applySectorsUpdateM (now : String) (sectors : Option (List Sector))
    (instanceId : Int) (st : ManagerState) : ManagerState × Option ManagerError :=
  if st.fatal then (st, none)
  else
    match sectors with
    | none => (st, none)
    | some secs =>
      let lr := getHistoryM st instanceId
      match lr.2 with
      | none => (lr.1, some (.loadFailed instanceId))
      | some h =>
        let r := applySectorsUpdateH now h secs
        if r.2.1 then
          ({ lr.1 with
             loadedGalaxies := fun j => if j = instanceId then some r.1 else lr.1.loadedGalaxies j,
             disk := fun j => if j = instanceId then some r.1 else lr.1.disk j },
            none)
        else (lr.1, none)

/-- Claim C9: once the process-wide fatal flag is set, every mutating call —
`processNewInstance`, `applySystemUpdate`, `applySectorsUpdate` — is a silent
no-op: the state (cache and persisted documents included) is returned
untouched and no error is reported. -/
theorem fatal_flag_silences_mutations (st : ManagerState) (hfatal : st.fatal = true)
    (now : String) (instanceId : Int) (galaxy : Galaxy) (mkdirFails : Bool)
    (getSector : Int → Sector) (sys : System) (sectors : Option (List Sector)) :
    processNewInstance now st instanceId galaxy mkdirFails = st ∧
    applySystemUpdateM getSector now sys instanceId st = (st, none) ∧
    applySectorsUpdateM now sectors instanceId st = (st, none) := by
  unfold processNewInstance applySystemUpdateM applySectorsUpdateM
  rw [hfatal]
  exact ⟨rfl, rfl, rfl⟩

/-- Claim C9 witness: a concrete fatal state absorbs all three mutating
calls. -/
theorem fatal_flag_silences_mutations_witness :
    processNewInstance "t1" ⟨fun _ => none, fun _ => none, true⟩ 20 simpleGalaxy false =
      ⟨fun _ => none, fun _ => none, true⟩ ∧
    applySystemUpdateM (fun _ => SIMPLE_SECTOR) "t1" graniteCandidate 20
        ⟨fun _ => none, fun _ => none, true⟩ =
      (⟨fun _ => none, fun _ => none, true⟩, none) ∧
    applySectorsUpdateM "t1" (some [SIMPLE_SECTOR]) 20
        ⟨fun _ => none, fun _ => none, true⟩ =
      (⟨fun _ => none, fun _ => none, true⟩, none) :=
  fatal_flag_silences_mutations ⟨fun _ => none, fun _ => none, true⟩ rfl
    "t1" 20 simpleGalaxy false (fun _ => SIMPLE_SECTOR) graniteCandidate
    (some [SIMPLE_SECTOR])

/-- Claim C1 (code-bug evidence): calling `processNewInstance` for an
instance that already has a History does NOT leave the stored state
unchanged.  The `hasHistory` guard only logs and falls through, so the cached
History is replaced by a fresh one built from the supplied galaxy; because
the instance directory already exists, `fs.mkdir` fails and its callback sets
the process-wide fatal flag (the document itself is only spared by that
failure).  Concretely: instance 20 holds a History started at "t0" over the
simple galaxy; re-creating it with the empty galaxy at "t1" swaps the cache
to a fresh History of the empty galaxy and trips the fatal flag. -/
theorem processNewInstance_overwrites_existing :
    hasHistory
      ⟨fun j => if j = 20 then some (History.create 20 simpleGalaxy "t0") else none,
        fun j => if j = 20 then some (History.create 20 simpleGalaxy "t0") else none,
        false⟩ 20 = true ∧
    (processNewInstance "t1"
      ⟨fun j => if j = 20 then some (History.create 20 simpleGalaxy "t0") else none,
        fun j => if j = 20 then some (History.create 20 simpleGalaxy "t0") else none,
        false⟩ 20 emptyGalaxy true).loadedGalaxies 20 =
      some (History.create 20 emptyGalaxy "t1") ∧
    some (History.create 20 emptyGalaxy "t1") ≠
      some (History.create 20 simpleGalaxy "t0") ∧
    (processNewInstance "t1"
      ⟨fun j => if j = 20 then some (History.create 20 simpleGalaxy "t0") else none,
        fun j => if j = 20 then some (History.create 20 simpleGalaxy "t0") else none,
        false⟩ 20 emptyGalaxy true).fatal = true := by
  refine ⟨rfl, rfl, ?_, rfl⟩
  intro hcontra
  have h1 := congrArg (fun o => o.map History.start) hcontra
  simp [History.create] at h1

/-- Projects the undo record's system `time` field (the bundled record's
timestamp lives on its system component). -/
def recSysTime : Rec → Option String
  | .bundled s _ => s.time
  | .flat sec => sec.time

/-- Projects the history out of an `applySystemUpdateH` result. -/
def resultHistory (r : Except UpdateError (History × System × Bool)) : Option History :=
  match r with
  | .ok x => some x.1
  | .error _ => none

/-- Claim C3 (code-bug evidence): `applySystemUpdate` reads and writes
`history.currentTime`, a field the `History` class does not declare, instead
of `currentTimestamp`.  On a class-constructed History (instance 20,
`currentTimestamp = "2022-03-24T10:01:50.085-04:00"`, no `currentTime`), a
change-detecting update stamps the undo record's time with `undefined`
(not the stored `currentTimestamp`), leaves `currentTimestamp` untouched,
and records the forward time in a fresh `currentTime` field. -/
theorem applySystemUpdate_currentTime_bug :
    SIMPLE_HISTORY.currentTimestamp = some "2022-03-24T10:01:50.085-04:00" ∧
    SIMPLE_HISTORY.currentTime = none ∧
    (resultHistory (applySystemUpdateH (fun _ => SIMPLE_SECTOR) "t1" graniteCandidate
        20 SIMPLE_HISTORY)).map (fun h => h.undo.map recSysTime) = some [none] ∧
    (resultHistory (applySystemUpdateH (fun _ => SIMPLE_SECTOR) "t1" graniteCandidate
        20 SIMPLE_HISTORY)).map History.currentTimestamp =
      some (some "2022-03-24T10:01:50.085-04:00") ∧
    (resultHistory (applySystemUpdateH (fun _ => SIMPLE_SECTOR) "t1" graniteCandidate
        20 SIMPLE_HISTORY)).map (fun h => h.currentTime) = some (some "t1") :=
  ⟨rfl, rfl, rfl, rfl, rfl⟩

/-! ## Version detection and the migration chain

`HistoryVersionUpgrader` inspects raw, untyped documents.  A raw document is
modelled by the two fields the detector reads: `VERSION` (absent or an
integer) and `snapshots` (absent or a list of entries that may or may not
carry a `system` property).  The detector runs on parsed objects
(`#convertHistoryToObj` returns object inputs unchanged, and property access
on an object cannot throw, so the catch branches returning `false` are not
reachable here). -/

structure RawSnap where
  system : Option Unit
deriving Repr, DecidableEq

structure RawDoc where
  VERSION : Option Int
  snapshots : Option (List RawSnap)
deriving Repr, DecidableEq

/-- JavaScript truthiness of `hist.VERSION`: an absent property and the
number 0 are falsy, every other integer is truthy. -/
def jsTruthyInt : Option Int → Bool
  | none => false
  | some v => v != 0

/-- The check `hist.snapshots && hist.snapshots.length > 0 && !hist.snapshots[0].system`:
the property exists (an array is truthy even when empty), is non-empty, and
its first entry has no truthy `system` property. -/
def betaSnapshotsShape (s : Option (List RawSnap)) : Bool :=
  match s with
  | some (s0 :: _) => s0.system.isNone
  | _ => false

/-- Model of `isAlphaVersion`: the source always returns false (stub). -/
def isAlphaVersion (_ : RawDoc) : Bool := false

/-- Model of `isBetaVersion`: `!hist.VERSION && hist.snapshots &&
hist.snapshots.length > 0 && !hist.snapshots[0].system`. -/
def isBetaVersion (d : RawDoc) : Bool :=
  !(jsTruthyInt d.VERSION) && betaSnapshotsShape d.snapshots

/-- Model of `detectVersion`: alpha dummy tag, else beta dummy tag, else the raw
`VERSION` property (`none` models the `undefined` returned for a document
with no version). -/
def detectVersion (d : RawDoc) : Option Int :=
  if isAlphaVersion d then some DUMMY_ALPHA_VERSION
  else if isBetaVersion d then some DUMMY_BETA_VERSION
  else d.VERSION

/-- Model of `upgradeAlpha`: the function body in the source is empty — the document is
left exactly as it was. -/
def upgradeAlpha (d : RawDoc) : RawDoc := d

/-- Model of `upgradeBeta`: the function body in the source is empty — the document is
left exactly as it was. -/
def upgradeBeta (d : RawDoc) : RawDoc := d

/-- The `while (detectedVersion !== LATEST_HISTORY_VESRION)` loop of
`upgradeHistoryFile`, with an explicit fuel bound: `none` means the loop has
not terminated within `fuel` iterations; `some (.error v)` models the
`"Unable to upgrade history file: unknown version"` throw for tag `v`
(`none` = `undefined`); `some (.ok doc)` is the document when the loop
exits. -/
def upgradeLoop : Nat → RawDoc → Option (Except (Option Int) RawDoc)
  | 0, _ => none
  | fuel + 1, doc =>
    if detectVersion doc = some LATEST_HISTORY_VESRION then some (.ok doc)
    else if detectVersion doc = some DUMMY_ALPHA_VERSION then
      upgradeLoop fuel (upgradeAlpha doc)
    else if detectVersion doc = some DUMMY_BETA_VERSION then
      upgradeLoop fuel (upgradeBeta doc)
    else some (.error (detectVersion doc))

/-- What `upgradeHistoryFile` hands back to its caller: the function has no
return statement, so whenever its loop terminates without throwing it
returns `undefined` — the upgraded document is discarded. -/
def upgradeHistoryFileReturn (fuel : Nat) (doc : RawDoc) :
    Option (Except (Option Int) Unit) :=
  match upgradeLoop fuel doc with
  | none => none
  | some (.ok _) => some (.ok ())
  | some (.error e) => some (.error e)

/-- A beta-shaped document: no `VERSION`, one snapshot entry without a
`system` property (the EMPTY_BETA_HISTORY of the tests, `{snapshots:[{}]}`). -/
def betaDoc : RawDoc := { VERSION := none, snapshots := some [{ system := none }] }

/-- The shape of the test fixture `createSimpleBetaHistory()`: no `VERSION`, two
flat snapshot entries (none carries a `system` property). -/
def betaTestDoc : RawDoc :=
  { VERSION := none, snapshots := some [{ system := none }, { system := none }] }

/-- A document already at the latest version. -/
def latestDoc : RawDoc := { VERSION := some 1, snapshots := some [] }

/-- Claim C2 (code-bug evidence): the migration loop does not terminate on a
beta-shaped document.  `detectVersion` classifies it as Beta, but
`upgradeBeta` is an empty stub, so the tag never advances and the
`while (detectedVersion !== LATEST_HISTORY_VESRION)` loop spins forever: for
every iteration bound, the loop is still running. -/
theorem upgradeHistoryFile_beta_never_terminates :
    detectVersion betaDoc = some DUMMY_BETA_VERSION ∧
    ∀ fuel : Nat, upgradeLoop fuel betaDoc = none := by
  refine ⟨rfl, ?_⟩
  intro fuel
  induction fuel with
  | zero => rfl
  | succ n ih =>
    exact (show upgradeLoop (n + 1) betaDoc = upgradeLoop n betaDoc from rfl).trans ih

/-- Claim C8 (code-bug evidence): `upgradeHistoryFile` never returns a
History document.  On an already-latest document the loop exits at once but
the function has no return statement, so the caller receives `undefined`
(unit here) rather than a History at the latest version; and on the
repository's own beta test document the loop never terminates at all
(`upgradeBeta` is an empty stub). -/
theorem upgradeHistoryFile_returns_undefined :
    upgradeHistoryFileReturn 1 latestDoc = some (.ok ()) ∧
    detectVersion betaTestDoc = some DUMMY_BETA_VERSION ∧
    ∀ fuel : Nat, upgradeHistoryFileReturn fuel betaTestDoc = none := by
  refine ⟨rfl, rfl, ?_⟩
  intro fuel
  have hloop : ∀ n : Nat, upgradeLoop n betaTestDoc = none := by
    intro n
    induction n with
    | zero => rfl
    | succ m ih =>
      exact (show upgradeLoop (m + 1) betaTestDoc = upgradeLoop m betaTestDoc from rfl).trans ih
  unfold upgradeHistoryFileReturn
  rw [hloop fuel]

/-- The claimed reading of `isBetaVersion`: version ABSENT, snapshots a
non-empty sequence, first entry without a nested `system` property.
(Modelled from the spec's words, for comparison with the source's
`isBetaVersion`.) -/
def isBetaVersionSpec (d : RawDoc) : Prop :=
  d.VERSION = none ∧ ∃ s0 rest, d.snapshots = some (s0 :: rest) ∧ s0.system = none

theorem jsTruthyInt_eq_false_iff (v : Option Int) :
    jsTruthyInt v = false ↔ (v = none ∨ v = some 0) := by
  cases v with
  | none => simp [jsTruthyInt]
  | some a => simp [jsTruthyInt]

theorem betaSnapshotsShape_iff (s : Option (List RawSnap)) :
    betaSnapshotsShape s = true ↔
      ∃ s0 rest, s = some (s0 :: rest) ∧ s0.system = none := by
  cases s with
  | none => simp [betaSnapshotsShape]
  | some l =>
    cases l with
    | nil => simp [betaSnapshotsShape]
    | cons s0 rest => simp [betaSnapshotsShape, Option.isNone_iff_eq_none]

/-- Claim C7 counterexample: the claimed iff fails on
`{VERSION: 0, snapshots: [{}]}` — the code checks JavaScript falsiness of
`VERSION`, not absence, so this document is classified Beta although its
version field is present. -/
theorem isBetaVersion_absent_iff_fails :
    ¬(∀ d : RawDoc, isBetaVersion d = true ↔ isBetaVersionSpec d) := by
  intro hall
  have h := (hall { VERSION := some 0, snapshots := some [{ system := none }] }).mp rfl
  exact Option.noConfusion h.1

/-- Claim C7 (amended): `isBetaVersion` returns true iff the document's
version field is absent OR falsy (the integer 0), its snapshots field is a
non-empty sequence, and the first entry lacks a `system` property; and
`detectVersion` maps `{}` to the falsy undefined, `{snapshots:[{}]}` to the
Beta tag, and any document with version 1 to 1. -/
theorem isBetaVersion_characterization :
    (∀ d : RawDoc, isBetaVersion d = true ↔
      ((d.VERSION = none ∨ d.VERSION = some 0) ∧
        ∃ s0 rest, d.snapshots = some (s0 :: rest) ∧ s0.system = none)) ∧
    detectVersion { VERSION := none, snapshots := none } = none ∧
    detectVersion betaDoc = some DUMMY_BETA_VERSION ∧
    ∀ s, detectVersion { VERSION := some 1, snapshots := s } = some 1 := by
  refine ⟨?_, rfl, rfl, ?_⟩
  · intro d
    rw [show isBetaVersion d = (!(jsTruthyInt d.VERSION) && betaSnapshotsShape d.snapshots) from rfl]
    rw [Bool.and_eq_true, Bool.not_eq_true', jsTruthyInt_eq_false_iff, betaSnapshotsShape_iff]
  · intro s
    simp [detectVersion, isAlphaVersion, isBetaVersion, jsTruthyInt]

end ReplayMaker
